import Mathlib

/-!
Shallow embedding of the trav terminal file browser (Rust), covering the
navigation core: the DirEntry wrapper and get_ok_entries from src/entry.rs,
the TravApp state and its handlers load_entries, handle_current_entry,
restart_err and handle_event from src/app.rs, and the StatefulList cursor
(src/util/list.rs is not part of the corpus; it is modelled from the spec).

The filesystem is modelled as a pure record of functions (FS): reading a
directory yields either a directory-level error or a stream of per-entry
read results; metadata and file-open queries are keyed by path.  Fallible
Rust methods returning anyhow::Result become functions returning the
mutated state paired with an Except String Unit, so that the question mark
operator's early return (with partial mutation) is represented faithfully.
-/

namespace Trav

/-- A filesystem path, as its list of components from the root.
Rust's Path::parent is Path.parent below: none for the empty path,
otherwise dropping the last component. -/
abbrev Path := List String

def Path.parent (p : Path) : Option Path :=
  if p.isEmpty then none else some p.dropLast

/-- The file kind reported by a metadata query (std::fs::FileType as far as
the program inspects it: is_dir, is_symlink, is_file, or none of those). -/
inductive FileKind
  | dir
  | file
  | symlink
  | other
deriving Repr, DecidableEq

/-- One filesystem child discovered while listing a directory: its name and
its full path (parent path plus name), as in entry.rs DirEntry wrapping
fs::DirEntry.  Metadata is queried on demand through FS, not stored. -/
structure DirEntry where
  name : String
  path : Path
deriving Repr, DecidableEq

/-- The filesystem environment the program runs against.  readDir returns
either a directory-level error or the stream of per-entry read results
(fs::read_dir); metadata is DirEntry::metadata keyed by the entry path;
openFile is File::open plus the per-line read results of BufReader::lines
(none when the open itself fails); spawnOpen is the result of launching
the external xdg-open process. -/
structure FS where
  readDir : Path → Except String (List (Except String String))
  metadata : Path → Except String FileKind
  openFile : Path → Option (List (Option String))
  spawnOpen : Path → Except String Unit

/-- entry.rs get_ok_entries: propagate a failure to read the directory
itself; push each stream entry that read Ok, silently skipping the ones
whose individual read failed.  Metadata is never consulted here. -/
def get_ok_entries (fs : FS) (path : Path) : Except String (List DirEntry) :=
  match fs.readDir path with
  | Except.error e => Except.error e
  | Except.ok stream =>
      Except.ok (stream.filterMap (fun r =>
        match r with
        | Except.ok nm => some { name := nm, path := path ++ [nm] }
        | Except.error _ => none))

/-- The file-preview loop of handle_current_entry: fold over the line read
results, appending each Ok line followed by a newline and dropping each
failed line, starting from the accumulated string so far. -/
def readLinesLoop : List (Option String) → String → String
  | [], acc => acc
  | none :: rest, acc => readLinesLoop rest acc
  | some l :: rest, acc => readLinesLoop rest (acc ++ l ++ "\n")

/-- The preview text built for a regular file: reader.lines().take(128)
fed through the loop above, starting from the empty string. -/
def fileSnippet (results : List (Option String)) : String :=
  readLinesLoop (results.take 128) ""

/-- Modelled from the spec: the Cursor (StatefulList in src/util/list.rs,
which is not part of the corpus) is an ordered sequence plus an optional
selected index; the index is intended to be none only when the sequence is
empty. -/
structure StatefulList (α : Type) where
  items : List α
  state : Option Nat
deriving Repr, DecidableEq

namespace StatefulList

/-- Modelled from the spec: an empty cursor with no selection. -/
def new {α : Type} : StatefulList α := { items := [], state := none }

/-- Modelled from the spec: build with initial selection at index 0 when
the sequence is non-empty, no selection otherwise. -/
def with_items {α : Type} (items : List α) : StatefulList α :=
  { items := items, state := if items.isEmpty then none else some 0 }

/-- Modelled from the spec: none clears the selection; an out-of-range
some i is clamped to the last valid index, and selects nothing on an
empty sequence. -/
def select {α : Type} (l : StatefulList α) (idx : Option Nat) : StatefulList α :=
  match idx with
  | none => { l with state := none }
  | some i =>
      if l.items.isEmpty then { l with state := none }
      else { l with state := some (min i (l.items.length - 1)) }

/-- Modelled from the spec: advance the selection by one, wrapping past the
last index to 0; a no-op returning none on an empty sequence.  From no
selection on a non-empty sequence it selects index 0, as in the stateful
list pattern the spec's cursor describes.  Returns the updated cursor
together with the new index. -/
def next {α : Type} (l : StatefulList α) : StatefulList α × Option Nat :=
  if l.items.isEmpty then (l, none)
  else
    let i :=
      match l.state with
      | some i => (i + 1) % l.items.length
      | none => 0
    ({ l with state := some i }, some i)

/-- Modelled from the spec: retreat the selection by one, wrapping past 0
to the last index; a no-op returning none on an empty sequence.  From no
selection on a non-empty sequence it selects the last index. -/
def previous {α : Type} (l : StatefulList α) : StatefulList α × Option Nat :=
  if l.items.isEmpty then (l, none)
  else
    let i :=
      match l.state with
      | some i => if i = 0 then l.items.length - 1 else i - 1
      | none => l.items.length - 1
    ({ l with state := some i }, some i)

/-- Modelled from the spec: read-only access to the selected item. -/
def current {α : Type} (l : StatefulList α) : Option α :=
  match l.state with
  | some i => l.items.get? i
  | none => none

/-- Modelled from the spec: the currently selected index. -/
def current_idx {α : Type} (l : StatefulList α) : Option Nat := l.state

end StatefulList

/-- The keys the event handler distinguishes: q, the four navigation keys
(Enter being an alias of Right), and anything else. -/
inductive Key
  | charQ
  | left
  | right
  | down
  | up
  | enter
  | other
deriving Repr, DecidableEq

/-- An input-source event: a key press or a timer tick. -/
inductive Event
  | input (k : Key)
  | tick
deriving Repr, DecidableEq

/-- The TravApp navigation state of src/app.rs (the external Events handle
is replaced by passing each event to handle_event explicitly, and the
renderer-only fields are outside the model). -/
structure TravApp where
  cwd_path : Path
  cwd_entries : StatefulList DirEntry
  cwd_idx : Option Nat
  parent : Option (Path × List DirEntry)
  parent_idx : Option Nat
  child_entries : Option (List DirEntry)
  content : Option String
  exit : Bool
  err : Option String
deriving Repr, DecidableEq

/-- app.rs restart_err: clear the error field when one is set. -/
def restart_err (app : TravApp) : TravApp :=
  if app.err.isSome then { app with err := none } else app

/-- app.rs TravApp::load_entries.  The question mark operators make the
mutations non-atomic: cwd_entries is replaced as soon as listing the
target succeeds, and only then is the parent listed; a failure there
returns early with cwd_path, cwd_idx and parent still holding their old
values.  On full success the path, the selection (clamped by select) and
the cached index are all updated. -/
def load_entries (fs : FS) (app : TravApp) (path : Path) (idx : Option Nat) :
    TravApp × Except String Unit :=
  match get_ok_entries fs path with
  | Except.error e => (app, Except.error e)
  | Except.ok es =>
      let app := { app with cwd_entries := StatefulList.with_items es }
      match Path.parent path with
      | some par =>
          match get_ok_entries fs par with
          | Except.error e => (app, Except.error e)
          | Except.ok pes =>
              let app := { app with parent := some (par, pes) }
              let app := { app with cwd_path := path }
              let app := { app with cwd_entries := app.cwd_entries.select idx }
              ({ app with cwd_idx := app.cwd_entries.current_idx }, Except.ok ())
      | none =>
          let app := { app with cwd_path := path }
          let app := { app with cwd_entries := app.cwd_entries.select idx }
          ({ app with cwd_idx := app.cwd_entries.current_idx }, Except.ok ())

/-- app.rs TravApp::handle_current_entry: recompute the preview for the
selected entry.  No selection is a no-op.  A metadata failure stores the
message in err and returns Ok, leaving the preview fields untouched.  For
a directory the child listing is assigned through a question mark, so a
listing failure propagates as an error; for a symlink the same listing is
attempted but a failure is silently dropped; for a regular file that opens,
the first 128 line results are folded into content, child_entries is
cleared and err is reset, while a failed open changes nothing. -/
def handle_current_entry (fs : FS) (app : TravApp) : TravApp × Except String Unit :=
  match app.cwd_entries.current with
  | none => (app, Except.ok ())
  | some entry =>
      match fs.metadata entry.path with
      | Except.error e => ({ app with err := some e }, Except.ok ())
      | Except.ok kind =>
          match kind with
          | FileKind.dir =>
              match get_ok_entries fs entry.path with
              | Except.error e => (app, Except.error e)
              | Except.ok es => ({ app with child_entries := some es }, Except.ok ())
          | FileKind.symlink =>
              match get_ok_entries fs entry.path with
              | Except.ok es => ({ app with child_entries := some es }, Except.ok ())
              | Except.error _ => (app, Except.ok ())
          | FileKind.file =>
              match fs.openFile entry.path with
              | none => (app, Except.ok ())
              | some results =>
                  ({ app with
                      content := some (fileSnippet results),
                      child_entries := none,
                      err := none }, Except.ok ())
          | FileKind.other => (app, Except.ok ())

/-- app.rs TravApp::handle_event, with the event passed in (Events::next is
the external input source).  Every navigation key first clears the error
banner via restart_err.  Left reloads the parent (when there is one) with
the remembered parent_idx, then recomputes the preview, then forgets
parent_idx; each fallible step propagates its error, aborting the handler.
Down and Up move the cursor and recompute the preview.  Right or Enter on
a directory remembers cwd_idx, descends and recomputes the preview (both
through the question mark), then stores the remembered index in
parent_idx; on a symlink the descend failure is swallowed and the handler
falls through to a plain preview recomputation; on a regular file the
external launcher is spawned and a launch failure is recorded in err,
after which the preview is recomputed as well. -/
def handle_event (fs : FS) (app : TravApp) (ev : Event) : TravApp × Except String Unit :=
  match ev with
  | Event.tick => (app, Except.ok ())
  | Event.input key =>
      match key with
      | Key.charQ => ({ app with exit := true }, Except.ok ())
      | Key.left =>
          let app := restart_err app
          match Path.parent app.cwd_path with
          | some par =>
              match load_entries fs app par app.parent_idx with
              | (app, Except.error e) => (app, Except.error e)
              | (app, Except.ok _) =>
                  match handle_current_entry fs app with
                  | (app, Except.error e) => (app, Except.error e)
                  | (app, Except.ok _) =>
                      ({ app with parent_idx := none }, Except.ok ())
          | none =>
              match handle_current_entry fs app with
              | (app, Except.error e) => (app, Except.error e)
              | (app, Except.ok _) => ({ app with parent_idx := none }, Except.ok ())
      | Key.down =>
          let app := restart_err app
          let stepped := app.cwd_entries.next
          let app := { app with cwd_entries := stepped.1, cwd_idx := stepped.2 }
          handle_current_entry fs app
      | Key.up =>
          let app := restart_err app
          let stepped := app.cwd_entries.previous
          let app := { app with cwd_entries := stepped.1, cwd_idx := stepped.2 }
          handle_current_entry fs app
      | Key.right | Key.enter =>
          let app := restart_err app
          match app.cwd_entries.current with
          | none => handle_current_entry fs app
          | some entry =>
              match fs.metadata entry.path with
              | Except.error _ => handle_current_entry fs app
              | Except.ok kind =>
                  match kind with
                  | FileKind.dir =>
                      let idx := app.cwd_idx
                      match load_entries fs app entry.path (some 0) with
                      | (app, Except.error e) => (app, Except.error e)
                      | (app, Except.ok _) =>
                          match handle_current_entry fs app with
                          | (app, Except.error e) => (app, Except.error e)
                          | (app, Except.ok _) =>
                              ({ app with parent_idx := idx }, Except.ok ())
                  | FileKind.symlink =>
                      let idx := app.cwd_idx
                      match load_entries fs app entry.path (some 0) with
                      | (app, Except.ok _) =>
                          match handle_current_entry fs app with
                          | (app, Except.error e) => (app, Except.error e)
                          | (app, Except.ok _) =>
                              ({ app with parent_idx := idx }, Except.ok ())
                      | (app, Except.error _) => handle_current_entry fs app
                  | FileKind.file =>
                      let app :=
                        match fs.spawnOpen entry.path with
                        | Except.error e => { app with err := some e }
                        | Except.ok _ => app
                      handle_current_entry fs app
                  | FileKind.other => handle_current_entry fs app
      | Key.other => (app, Except.ok ())

lemma join_nil : String.join ([] : List String) = "" := rfl

lemma join_cons (x : String) (xs : List String) :
    String.join (x :: xs) = x ++ String.join xs := by
  apply String.ext
  simp

/-- The snippet loop concatenates, after the accumulator, every kept line
followed by a newline. -/
lemma readLinesLoop_eq (rs : List (Option String)) (acc : String) :
    readLinesLoop rs acc =
      acc ++ String.join ((rs.filterMap id).map (fun l => l ++ "\n")) := by
  induction rs generalizing acc with
  | nil => simp [readLinesLoop, join_nil]
  | cons r rs ih =>
      cases r with
      | none => simpa [readLinesLoop] using ih acc
      | some l =>
          rw [readLinesLoop, ih]
          simp [join_cons, String.append_assoc]

/-- Closed form of the file preview: the first 128 line results, filtered
down to the successful reads, each followed by a newline. -/
lemma fileSnippet_eq (results : List (Option String)) :
    fileSnippet results =
      String.join (((results.take 128).filterMap id).map (fun l => l ++ "\n")) := by
  rw [fileSnippet, readLinesLoop_eq]
  apply String.ext
  simp

lemma intercalate_go_prepend (l : List String) (x y s : String) :
    String.intercalate.go (x ++ y) s l = x ++ String.intercalate.go y s l := by
  induction l generalizing y with
  | nil => simp [String.intercalate.go]
  | cons a l ih =>
      rw [String.intercalate.go, String.intercalate.go,
        String.append_assoc (x ++ y) s a, String.append_assoc x y (s ++ a),
        ih, ← String.append_assoc y s a]

/-- Appending a newline to every element and concatenating is the same as
interspersing newlines and appending one trailing newline. -/
lemma join_map_newline (a : String) (l : List String) :
    String.join ((a :: l).map (fun x => x ++ "\n")) =
      String.intercalate "\n" (a :: l) ++ "\n" := by
  induction l generalizing a with
  | nil => simp [join_cons, join_nil, String.intercalate, String.intercalate.go]
  | cons b l ih =>
      rw [List.map_cons, join_cons, ih]
      show (a ++ "\n") ++ (String.intercalate "\n" (b :: l) ++ "\n") = _
      rw [String.intercalate, String.intercalate, String.intercalate.go]
      rw [show a ++ "\n" ++ b = (a ++ "\n") ++ b from rfl, intercalate_go_prepend]
      simp [String.append_assoc]

/-- A non-empty concatenation of newline-terminated lines ends in a
newline. -/
lemma join_map_newline_trailing (ks : List String) (h : ks ≠ []) :
    ∃ pre, String.join (ks.map (fun l => l ++ "\n")) = pre ++ "\n" := by
  induction ks with
  | nil => exact absurd rfl h
  | cons k ks ih =>
      cases ks with
      | nil => exact ⟨k, by simp [join_cons, join_nil]⟩
      | cons k2 ks2 =>
          obtain ⟨pre, hpre⟩ := ih (by simp)
          refine ⟨k ++ "\n" ++ pre, ?_⟩
          rw [List.map_cons, join_cons, hpre]
          simp [String.append_assoc]

/-- C10: when a regular file opens for preview, the loop consumes at most
the first 128 line-read results, silently drops each failed read (a failed
line still uses up one of the 128 slots, since take comes before the
filtering), and appends a newline after every kept line, so every
non-empty snippet ends with a trailing newline. -/
theorem c10_snippet_loop (results : List (Option String)) :
    fileSnippet results =
      String.join (((results.take 128).filterMap id).map (fun l => l ++ "\n"))
    ∧ (fileSnippet results ≠ "" → ∃ pre, fileSnippet results = pre ++ "\n") := by
  refine ⟨fileSnippet_eq results, fun hne => ?_⟩
  rw [fileSnippet_eq] at hne ⊢
  apply join_map_newline_trailing
  intro hks
  simp [hks, join_nil] at hne

/-- Witness for C10 at a concrete input containing a failed line read. -/
theorem c10_snippet_loop_witness :
    fileSnippet [some "a", none, some "b"] ≠ "" ∧
      ∃ pre, fileSnippet [some "a", none, some "b"] = pre ++ "\n" :=
  ⟨by decide, (c10_snippet_loop [some "a", none, some "b"]).2 (by decide)⟩

set_option maxRecDepth 4000 in
/-- C5 fails as stated: for a 500-line file whose reads all succeed, the
snippet is not the first 128 lines joined by newlines, because the loop
also appends a newline after the last kept line. -/
theorem c5_counterexample :
    fileSnippet (List.replicate 500 (some "a")) ≠
      String.intercalate "\n" ((List.replicate 500 "a").take 128) := by
  decide

/-- C5 amended: the snippet depends only on the first 128 line results, and
for a 500-line file it is exactly the first 128 lines joined by newlines
followed by one trailing newline. -/
theorem c5_amended (ls : List String) (h : ls.length = 500) :
    fileSnippet (ls.map some) =
      String.intercalate "\n" (ls.take 128) ++ "\n"
    ∧ ∀ results : List (Option String),
        fileSnippet results = fileSnippet (results.take 128) := by
  constructor
  · rw [fileSnippet_eq]
    have h1 : ((ls.map some).take 128).filterMap id = ls.take 128 := by
      rw [← List.map_take, List.filterMap_map]
      simp
    obtain ⟨a, l, hal⟩ : ∃ a l, ls.take 128 = a :: l := by
      cases hx : ls.take 128 with
      | nil =>
          exfalso
          have := congrArg List.length hx
          simp [h] at this
      | cons a l => exact ⟨a, l, rfl⟩
    rw [h1, hal]
    exact join_map_newline a l
  · intro results
    rw [fileSnippet, fileSnippet, List.take_take]
    norm_num

set_option maxRecDepth 4000 in
/-- Witness for the amended C5 at the concrete 500-line file of letter a
lines. -/
theorem c5_amended_witness :
    (List.replicate 500 "a").length = 500 ∧
      fileSnippet ((List.replicate 500 "a").map some) =
        String.intercalate "\n" ((List.replicate 500 "a").take 128) ++ "\n" :=
  ⟨by decide, (c5_amended (List.replicate 500 "a") (by decide)).1⟩

deriving instance DecidableEq for Except

lemma restart_err_eq (app : TravApp) : restart_err app = { app with err := none } := by
  cases app with
  | mk cp ce ci pa pi che co ex er =>
      unfold restart_err
      cases er <;> simp

/-- Recomputing the preview never touches the navigation fields: path,
entries, selection, parent snapshot, remembered parent index, exit flag. -/
lemma handle_current_entry_preserves (fs : FS) (app : TravApp) :
    ((handle_current_entry fs app).1).cwd_path = app.cwd_path
    ∧ ((handle_current_entry fs app).1).cwd_entries = app.cwd_entries
    ∧ ((handle_current_entry fs app).1).cwd_idx = app.cwd_idx
    ∧ ((handle_current_entry fs app).1).parent = app.parent
    ∧ ((handle_current_entry fs app).1).parent_idx = app.parent_idx
    ∧ ((handle_current_entry fs app).1).exit = app.exit := by
  unfold handle_current_entry
  repeat' split
  all_goals simp

/-- Filesystem and navigation state on which C1 fails: the current
directory has a parent whose listing errors out. -/
def fsC1 : FS where
  readDir := fun p =>
    if p = ["a", "b"] then Except.ok [Except.ok "x"] else Except.error "boom"
  metadata := fun _ => Except.ok FileKind.file
  openFile := fun _ => none
  spawnOpen := fun _ => Except.ok ()

def appC1 : TravApp where
  cwd_path := ["a", "b"]
  cwd_entries := { items := [{ name := "x", path := ["a", "b", "x"] }], state := some 0 }
  cwd_idx := some 0
  parent := none
  parent_idx := none
  child_entries := none
  content := none
  exit := false
  err := none

/-- C1 fails as stated: on Ascend with an unreadable target directory, the
handler returns the error (which the main loop propagates, ending the
session) and does not populate the error field. -/
theorem c1_counterexample :
    (handle_event fsC1 appC1 (Event.input Key.left)).2 = Except.error "boom"
    ∧ ((handle_event fsC1 appC1 (Event.input Key.left)).1).err = none := by
  decide

/-- C1 amended: when reading the target directory of an Ascend, or of a
Descend into a directory, fails, the whole navigation state except the
cleared error banner is left unchanged, but the error propagates out of
the event handler as an error return (aborting the session through the
main loop) instead of being stored in the error field.  (A Descend onto a
symlink instead swallows such a failure.) -/
theorem c1_amended (fs : FS) (app : TravApp) (e : String) :
    (∀ par, Path.parent app.cwd_path = some par →
        get_ok_entries fs par = Except.error e →
        handle_event fs app (Event.input Key.left) =
          ({ app with err := none }, Except.error e))
    ∧ (∀ entry, app.cwd_entries.current = some entry →
        fs.metadata entry.path = Except.ok FileKind.dir →
        get_ok_entries fs entry.path = Except.error e →
        handle_event fs app (Event.input Key.right) =
          ({ app with err := none }, Except.error e)) := by
  constructor
  · intro par hpar herr
    simp [handle_event, restart_err_eq, hpar, load_entries, herr]
  · intro entry hcur hmd herr
    simp [handle_event, restart_err_eq, hcur, hmd, load_entries, herr]

/-- Witness for the amended C1, on the concrete broken-parent filesystem. -/
theorem c1_amended_witness :
    handle_event fsC1 appC1 (Event.input Key.left) =
      ({ appC1 with err := none }, Except.error "boom") :=
  (c1_amended fsC1 appC1 "boom").1 ["a"] (by decide) (by decide)

/-- Filesystem and state on which C2 fails: entry x is a directory whose
child listing is currently shown in the preview; entry y is next in the
listing and its metadata query fails. -/
def fsC2 : FS where
  readDir := fun p =>
    if p = ["d"] then Except.ok [Except.ok "x", Except.ok "y"]
    else if p = ["d", "x"] then Except.ok [Except.ok "k"]
    else Except.error "boom"
  metadata := fun p =>
    if p = ["d", "x"] then Except.ok FileKind.dir
    else if p = ["d", "y"] then Except.error "meta boom"
    else Except.ok FileKind.file
  openFile := fun _ => none
  spawnOpen := fun _ => Except.ok ()

def appC2 : TravApp where
  cwd_path := ["d"]
  cwd_entries :=
    { items := [{ name := "x", path := ["d", "x"] },
                { name := "y", path := ["d", "y"] }],
      state := some 0 }
  cwd_idx := some 0
  parent := none
  parent_idx := none
  child_entries := some [{ name := "k", path := ["d", "x", "k"] }]
  content := none
  exit := false
  err := none

/-- C2 fails as stated: after MoveDown selects entry y (index 1) and its
metadata query fails, the preview still holds the child listing computed
for the previously selected entry x, instead of being reset to Empty. -/
theorem c2_counterexample :
    (handle_event fsC2 appC2 (Event.input Key.down)).2 = Except.ok ()
    ∧ ((handle_event fsC2 appC2 (Event.input Key.down)).1).cwd_idx = some 1
    ∧ ((handle_event fsC2 appC2 (Event.input Key.down)).1).err = some "meta boom"
    ∧ ((handle_event fsC2 appC2 (Event.input Key.down)).1).child_entries =
        some [{ name := "k", path := ["d", "x", "k"] }] := by
  decide

/-- C2 amended: when the metadata query for the selected entry fails, the
preview recomputation stores the message in the error field and returns
normally, but leaves the preview fields (child listing and text snippet)
at their previous, possibly stale, values instead of resetting them to
Empty. -/
theorem c2_amended (fs : FS) (app : TravApp) (entry : DirEntry) (e : String)
    (hcur : app.cwd_entries.current = some entry)
    (hmd : fs.metadata entry.path = Except.error e) :
    handle_current_entry fs app = ({ app with err := some e }, Except.ok ()) := by
  simp [handle_current_entry, hcur, hmd]

/-- Witness for the amended C2 on the concrete metadata-failing entry. -/
theorem c2_amended_witness :
    handle_current_entry fsC2
        { appC2 with
            cwd_entries := { appC2.cwd_entries with state := some 1 },
            cwd_idx := some 1 } =
      ({ appC2 with
          cwd_entries := { appC2.cwd_entries with state := some 1 },
          cwd_idx := some 1,
          err := some "meta boom" }, Except.ok ()) :=
  c2_amended fsC2 _ { name := "y", path := ["d", "y"] } "meta boom"
    (by decide) (by decide)

/-- Filesystem and state on which C3 fails: the selected entry x is a
directory whose child listing errors out. -/
def fsC3 : FS where
  readDir := fun p =>
    if p = ["d"] then Except.ok [Except.ok "x"] else Except.error "boom"
  metadata := fun p =>
    if p = ["d", "x"] then Except.ok FileKind.dir else Except.ok FileKind.file
  openFile := fun _ => none
  spawnOpen := fun _ => Except.ok ()

def appC3 : TravApp where
  cwd_path := ["d"]
  cwd_entries := { items := [{ name := "x", path := ["d", "x"] }], state := some 0 }
  cwd_idx := some 0
  parent := none
  parent_idx := none
  child_entries := none
  content := none
  exit := false
  err := none

/-- C3 fails as stated: with a selected directory whose child listing
errors, the MoveDown handler returns the listing error instead of
completing the navigation, so the main loop aborts the session. -/
theorem c3_counterexample :
    (handle_event fsC3 appC3 (Event.input Key.down)).2 = Except.error "boom" := by
  decide

/-- C3 amended: a preview-listing failure is tolerated only for a symlink
(the preview and the rest of the state stay as they were and the handler
returns normally); for a plain directory the listing failure propagates
out of the preview recomputation as an error, aborting the navigation. -/
theorem c3_amended (fs : FS) (app : TravApp) (entry : DirEntry) (e : String)
    (hcur : app.cwd_entries.current = some entry)
    (herr : get_ok_entries fs entry.path = Except.error e) :
    (fs.metadata entry.path = Except.ok FileKind.symlink →
        handle_current_entry fs app = (app, Except.ok ()))
    ∧ (fs.metadata entry.path = Except.ok FileKind.dir →
        handle_current_entry fs app = (app, Except.error e)) := by
  constructor <;> intro hmd <;> simp [handle_current_entry, hcur, hmd, herr]

/-- Filesystem variant for the C3 witness: x is a symlink whose target
listing errors; the preview recomputation is then a no-op. -/
def fsC3b : FS where
  readDir := fun p =>
    if p = ["d"] then Except.ok [Except.ok "x"] else Except.error "boom"
  metadata := fun p =>
    if p = ["d", "x"] then Except.ok FileKind.symlink else Except.ok FileKind.file
  openFile := fun _ => none
  spawnOpen := fun _ => Except.ok ()

/-- Witness for the amended C3: the symlink case completes normally and
the directory case returns the error, on concrete inputs. -/
theorem c3_amended_witness :
    handle_current_entry fsC3b appC3 = (appC3, Except.ok ())
    ∧ handle_current_entry fsC3 appC3 = (appC3, Except.error "boom") :=
  ⟨(c3_amended fsC3b appC3 { name := "x", path := ["d", "x"] } "boom"
      (by decide) (by decide)).1 (by decide),
   (c3_amended fsC3 appC3 { name := "x", path := ["d", "x"] } "boom"
      (by decide) (by decide)).2 (by decide)⟩

/-- Filesystem and state on which C4 fails: the selected entry f is a
regular, readable file and launching the external opener fails. -/
def fsC4 : FS where
  readDir := fun p =>
    if p = ["d"] then Except.ok [Except.ok "f"] else Except.error "boom"
  metadata := fun _ => Except.ok FileKind.file
  openFile := fun p =>
    if p = ["d", "f"] then some [some "hello"] else none
  spawnOpen := fun _ => Except.error "spawn fail"

def appC4 : TravApp where
  cwd_path := ["d"]
  cwd_entries := { items := [{ name := "f", path := ["d", "f"] }], state := some 0 }
  cwd_idx := some 0
  parent := none
  parent_idx := none
  child_entries := none
  content := none
  exit := false
  err := none

/-- C4 fails as stated: after a failed launch on Descend over a readable
regular file, the handler returns normally but the error field has been
wiped again (by the file-preview recomputation), so nothing remains for
the error pane to show. -/
theorem c4_counterexample :
    (handle_event fsC4 appC4 (Event.input Key.right)).2 = Except.ok ()
    ∧ ((handle_event fsC4 appC4 (Event.input Key.right)).1).err = none := by
  decide

/-- C4 amended: a launch failure on Descend over a regular file stores the
message in the error field, but the preview recomputation that follows
clears it whenever the file itself opens successfully (also refreshing the
text snippet); the message survives to the end of the handler only when
the file cannot be opened.  The navigation fields are unchanged either
way. -/
theorem c4_amended (fs : FS) (app : TravApp) (entry : DirEntry) (e : String)
    (hcur : app.cwd_entries.current = some entry)
    (hmd : fs.metadata entry.path = Except.ok FileKind.file)
    (hsp : fs.spawnOpen entry.path = Except.error e) :
    (fs.openFile entry.path = none →
        handle_event fs app (Event.input Key.right) =
          ({ app with err := some e }, Except.ok ()))
    ∧ ∀ results, fs.openFile entry.path = some results →
        handle_event fs app (Event.input Key.right) =
          ({ app with
              err := none,
              content := some (fileSnippet results),
              child_entries := none }, Except.ok ()) := by
  constructor
  · intro hopen
    simp [handle_event, restart_err_eq, hcur, hmd, hsp,
      handle_current_entry, hopen]
  · intro results hopen
    simp [handle_event, restart_err_eq, hcur, hmd, hsp,
      handle_current_entry, hopen]

/-- Filesystem variant for the C4 witness: same failing launcher but the
file does not open, so the launch error survives. -/
def fsC4b : FS where
  readDir := fun p =>
    if p = ["d"] then Except.ok [Except.ok "f"] else Except.error "boom"
  metadata := fun _ => Except.ok FileKind.file
  openFile := fun _ => none
  spawnOpen := fun _ => Except.error "spawn fail"

/-- Witness for the amended C4 on concrete readable and unreadable files. -/
theorem c4_amended_witness :
    handle_event fsC4b appC4 (Event.input Key.right) =
      ({ appC4 with err := some "spawn fail" }, Except.ok ())
    ∧ handle_event fsC4 appC4 (Event.input Key.right) =
      ({ appC4 with
          err := none,
          content := some (fileSnippet [some "hello"]),
          child_entries := none }, Except.ok ()) :=
  ⟨(c4_amended fsC4b appC4 { name := "f", path := ["d", "f"] } "spawn fail"
      (by decide) (by decide) (by decide)).1 (by decide),
   (c4_amended fsC4 appC4 { name := "f", path := ["d", "f"] } "spawn fail"
      (by decide) (by decide) (by decide)).2 [some "hello"] (by decide)⟩

/-- C6: listing a directory returns an error exactly when reading the
directory itself fails (with the same message); when the directory reads,
the listing keeps exactly the children whose individual stream read
succeeded, skipping the failed ones silently; and the result never
consults the metadata oracle, so metadata-failing children are retained. -/
theorem c6_listing_skip_policy (fs fs' : FS) (p : Path) (e : String)
    (stream : List (Except String String)) :
    (get_ok_entries fs p = Except.error e ↔ fs.readDir p = Except.error e)
    ∧ (fs.readDir p = Except.ok stream →
        get_ok_entries fs p =
          Except.ok (stream.filterMap (fun r =>
            match r with
            | Except.ok nm => some { name := nm, path := p ++ [nm] }
            | Except.error _ => none)))
    ∧ (fs.readDir = fs'.readDir → get_ok_entries fs p = get_ok_entries fs' p) := by
  refine ⟨⟨?_, ?_⟩, ?_, ?_⟩
  · intro h
    rcases hrd : fs.readDir p with e' | s <;> rw [get_ok_entries, hrd] at h
    · injection h with h
      rw [h]
    · exact absurd h (by simp)
  · intro h
    rw [get_ok_entries, h]
  · intro h
    rw [get_ok_entries, h]
  · intro h
    rw [get_ok_entries, get_ok_entries, h]

/-- Filesystem for the C6 witness: a directory with three streamed
children, the middle of which fails its metadata query. -/
def fsC6 : FS where
  readDir := fun p =>
    if p = ["d"] then Except.ok [Except.ok "a", Except.ok "b", Except.ok "c"]
    else Except.error "not a directory"
  metadata := fun p =>
    if p = ["d", "b"] then Except.error "metadata failed"
    else Except.ok FileKind.file
  openFile := fun _ => none
  spawnOpen := fun _ => Except.ok ()

/-- Witness for C6: one metadata-failing child among two healthy ones
still yields a three-entry listing. -/
theorem c6_listing_skip_policy_witness :
    fsC6.metadata ["d", "b"] = Except.error "metadata failed"
    ∧ get_ok_entries fsC6 ["d"] =
        Except.ok [{ name := "a", path := ["d", "a"] },
                   { name := "b", path := ["d", "b"] },
                   { name := "c", path := ["d", "c"] }] :=
  ⟨by decide,
   ((c6_listing_skip_policy fsC6 fsC6 ["d"] "unused"
      [Except.ok "a", Except.ok "b", Except.ok "c"]).2.1 (by decide)).trans
     (by decide)⟩

/-- C9: when listing the target path succeeds but listing its parent
fails, load_entries returns the error with cwd_entries already replaced by
the fresh target listing while cwd_path, cwd_idx and the parent snapshot
still hold their previous values: the update is not atomic on this error
path. -/
theorem c9_load_entries_not_atomic (fs : FS) (app : TravApp) (path : Path)
    (idx : Option Nat) (es : List DirEntry) (par : Path) (e : String)
    (hok : get_ok_entries fs path = Except.ok es)
    (hpar : Path.parent path = some par)
    (herr : get_ok_entries fs par = Except.error e) :
    load_entries fs app path idx =
      ({ app with cwd_entries := StatefulList.with_items es }, Except.error e) := by
  simp [load_entries, hok, hpar, herr]

/-- Filesystem and state for the C9 witness: the target lists fine, its
parent does not, and the prior state is fully populated so the partial
update is visible. -/
def fsC9 : FS where
  readDir := fun p =>
    if p = ["a", "b"] then Except.ok [Except.ok "x"] else Except.error "denied"
  metadata := fun _ => Except.ok FileKind.file
  openFile := fun _ => none
  spawnOpen := fun _ => Except.ok ()

def appC9 : TravApp where
  cwd_path := ["old"]
  cwd_entries := { items := [{ name := "o", path := ["old", "o"] }], state := some 0 }
  cwd_idx := some 0
  parent := some ([], [{ name := "old", path := ["old"] }])
  parent_idx := some 7
  child_entries := none
  content := none
  exit := false
  err := none

/-- Witness for C9: the returned state keeps the old path, index and
parent snapshot but already carries the new target listing. -/
theorem c9_load_entries_not_atomic_witness :
    load_entries fsC9 appC9 ["a", "b"] (some 0) =
      ({ appC9 with
          cwd_entries := StatefulList.with_items [{ name := "x", path := ["a", "b", "x"] }] },
       Except.error "denied") :=
  c9_load_entries_not_atomic fsC9 appC9 ["a", "b"] (some 0)
    [{ name := "x", path := ["a", "b", "x"] }] ["a"] "denied"
    (by decide) (by decide) (by decide)

lemma next_step {α : Type} (l : StatefulList α) (j : Nat)
    (hs : l.state = some j) (hne : l.items ≠ []) :
    StatefulList.next l =
      ({ l with state := some ((j + 1) % l.items.length) },
       some ((j + 1) % l.items.length)) := by
  simp [StatefulList.next, hs, hne]

lemma prev_step {α : Type} (l : StatefulList α) (j : Nat)
    (hs : l.state = some j) (hne : l.items ≠ []) :
    StatefulList.previous l =
      ({ l with state := some (if j = 0 then l.items.length - 1 else j - 1) },
       some (if j = 0 then l.items.length - 1 else j - 1)) := by
  simp [StatefulList.previous, hs, hne]

lemma wrap_pred (j n : Nat) (hj : j < n) :
    (if j = 0 then n - 1 else j - 1) = (j + (n - 1)) % n := by
  rcases Nat.eq_zero_or_pos j with h0 | hpos
  · subst h0
    simp [Nat.mod_eq_of_lt (by omega : n - 1 < n)]
  · rw [if_neg (by omega)]
    have h1 : j + (n - 1) = (j - 1) + n := by omega
    rw [h1, Nat.add_mod_right, Nat.mod_eq_of_lt (by omega)]

/-- Iterating the wrapping next step m times from index i lands on index
i plus m, modulo the length, and never changes the items. -/
lemma next_iterate {α : Type} (l : StatefulList α) (i m : Nat)
    (hs : l.state = some i) (hi : i < l.items.length) :
    ((fun s : StatefulList α => (StatefulList.next s).1)^[m] l).items = l.items
    ∧ ((fun s : StatefulList α => (StatefulList.next s).1)^[m] l).state =
        some ((i + m) % l.items.length) := by
  have hne : l.items ≠ [] := by
    intro hc
    rw [hc] at hi
    exact absurd hi (by simp)
  induction m with
  | zero => exact ⟨rfl, by simp [hs, Nat.mod_eq_of_lt hi]⟩
  | succ m ih =>
      obtain ⟨hit, hst⟩ := ih
      rw [Function.iterate_succ_apply']
      have hstep := next_step _ _ hst (by rw [hit]; exact hne)
      rw [hstep]
      refine ⟨hit, ?_⟩
      rw [hit]
      rw [Nat.mod_add_mod]
      rw [Nat.add_assoc]

/-- Iterating the wrapping previous step m times from index i lands on
index i plus m copies of length minus one, modulo the length. -/
lemma prev_iterate {α : Type} (l : StatefulList α) (i m : Nat)
    (hs : l.state = some i) (hi : i < l.items.length) :
    ((fun s : StatefulList α => (StatefulList.previous s).1)^[m] l).items = l.items
    ∧ ((fun s : StatefulList α => (StatefulList.previous s).1)^[m] l).state =
        some ((i + (l.items.length - 1) * m) % l.items.length) := by
  have hne : l.items ≠ [] := by
    intro hc
    rw [hc] at hi
    exact absurd hi (by simp)
  induction m with
  | zero => exact ⟨rfl, by simp [hs, Nat.mod_eq_of_lt hi]⟩
  | succ m ih =>
      obtain ⟨hit, hst⟩ := ih
      rw [Function.iterate_succ_apply']
      have hstep := prev_step _ _ hst (by rw [hit]; exact hne)
      rw [hstep]
      refine ⟨hit, ?_⟩
      rw [hit]
      have hj : (i + (l.items.length - 1) * m) % l.items.length < l.items.length :=
        Nat.mod_lt _ (by omega)
      rw [wrap_pred _ _ hj, Nat.mod_add_mod, Nat.mul_succ, Nat.add_assoc]

/-- C8: on a cursor over a non-empty sequence, n calls of next from any
valid starting index return the selection to that index (the items
untouched), and likewise for previous; on an empty sequence both are
no-ops returning none. -/
theorem c8_cursor_wrap {α : Type} (l : StatefulList α) (i : Nat)
    (hs : l.state = some i) (hi : i < l.items.length) :
    (((fun s : StatefulList α => (StatefulList.next s).1)^[l.items.length] l).state
        = some i
      ∧ ((fun s : StatefulList α => (StatefulList.previous s).1)^[l.items.length] l).state
        = some i)
    ∧ ∀ l' : StatefulList α, l'.items = [] →
        StatefulList.next l' = (l', none) ∧ StatefulList.previous l' = (l', none) := by
  refine ⟨⟨?_, ?_⟩, ?_⟩
  · rw [(next_iterate l i l.items.length hs hi).2, Nat.add_mod_right,
      Nat.mod_eq_of_lt hi]
  · rw [(prev_iterate l i l.items.length hs hi).2, Nat.add_mul_mod_self_right,
      Nat.mod_eq_of_lt hi]
  · intro l' h
    constructor <;> simp [StatefulList.next, StatefulList.previous, h]

/-- Witness for C8: a three-element cursor starting at index 1 wraps back
to 1 after three next steps, and next on an empty cursor is a no-op. -/
theorem c8_cursor_wrap_witness :
    ((fun s : StatefulList Nat => (StatefulList.next s).1)^[3]
        ({ items := [10, 20, 30], state := some 1 } : StatefulList Nat)).state = some 1
    ∧ StatefulList.next ({ items := [], state := none } : StatefulList Nat) =
        ({ items := [], state := none }, none) :=
  ⟨((c8_cursor_wrap { items := [10, 20, 30], state := some 1 } 1 rfl (by decide)).1).1,
   ((c8_cursor_wrap ({ items := [10, 20, 30], state := some 1 } : StatefulList Nat) 1
        rfl (by decide)).2 { items := [], state := none } rfl).1⟩

lemma parent_append (p : Path) (nm : String) : Path.parent (p ++ [nm]) = some p := by
  simp [Path.parent]

lemma with_items_select {α : Type} (items : List α) (k : Nat)
    (hk : k < items.length) :
    (StatefulList.with_items items).select (some k) =
      { items := items, state := some k } := by
  have hne : items.isEmpty = false := by
    cases items with
    | nil => simp at hk
    | cons a l => rfl
  simp [StatefulList.with_items, StatefulList.select, hne,
    Nat.min_eq_left (by omega : k ≤ items.length - 1)]

/-- Inversion for a successful load_entries: the target listing succeeded,
the path, cursor and cached index are updated from it, and the remaining
fields are carried over unchanged. -/
lemma load_entries_ok_inv (fs : FS) (a a' : TravApp) (path : Path)
    (idx : Option Nat)
    (h : load_entries fs a path idx = (a', Except.ok ())) :
    ∃ es, get_ok_entries fs path = Except.ok es
      ∧ a'.cwd_path = path
      ∧ a'.cwd_entries = (StatefulList.with_items es).select idx
      ∧ a'.cwd_idx = ((StatefulList.with_items es).select idx).state
      ∧ a'.parent_idx = a.parent_idx
      ∧ a'.exit = a.exit
      ∧ a'.err = a.err
      ∧ a'.child_entries = a.child_entries
      ∧ a'.content = a.content := by
  unfold load_entries at h
  rcases hT : get_ok_entries fs path with e | es
  · simp only [hT] at h
    simp at h
  · simp only [hT] at h
    refine ⟨es, rfl, ?_⟩
    rcases hp : Path.parent path with _ | par
    · simp only [hp] at h
      injection h with h1 h2
      subst h1
      simp [StatefulList.current_idx]
    · simp only [hp] at h
      rcases hG : get_ok_entries fs par with e | gs
      · simp only [hG] at h
        simp at h
      · simp only [hG] at h
        injection h with h1 h2
        subst h1
        simp [StatefulList.current_idx]

/-- A successful Descend onto a directory entry ends at the entry's path
with the prior selection remembered in parent_idx. -/
lemma descend_dir_ok (fs : FS) (a a1 : TravApp) (entry : DirEntry)
    (hc : a.cwd_entries.current = some entry)
    (hmd : fs.metadata entry.path = Except.ok FileKind.dir)
    (hdesc : handle_event fs a (Event.input Key.right) = (a1, Except.ok ())) :
    a1.cwd_path = entry.path ∧ a1.parent_idx = a.cwd_idx := by
  unfold handle_event at hdesc
  rw [restart_err_eq] at hdesc
  simp only [hc, hmd] at hdesc
  rcases hload : load_entries fs { a with err := none } entry.path (some 0)
    with ⟨aL, rL⟩
  rw [hload] at hdesc
  rcases rL with eL | uL
  · simp at hdesc
  · cases uL
    simp only [] at hdesc
    rcases hH : handle_current_entry fs aL with ⟨aH, rH⟩
    simp only [hH] at hdesc
    rcases rH with eH | uH
    · simp at hdesc
    · cases uH
      injection hdesc with h1 h2
      obtain ⟨es, _, hLpath, _, _, _, _, _, _, _⟩ :=
        load_entries_ok_inv fs { a with err := none } aL entry.path (some 0) hload
      obtain ⟨hHpath, _, _, _, _, _⟩ := handle_current_entry_preserves fs aL
      rw [hH] at hHpath
      constructor
      · rw [← h1]
        show aH.cwd_path = entry.path
        rw [hHpath, hLpath]
      · rw [← h1]

/-- A successful Ascend reloads the parent directory, restores the
remembered parent_idx through the clamping select, and forgets it. -/
lemma ascend_ok (fs : FS) (a a2 : TravApp) (par : Path)
    (hp : Path.parent a.cwd_path = some par)
    (hasc : handle_event fs a (Event.input Key.left) = (a2, Except.ok ())) :
    ∃ es, get_ok_entries fs par = Except.ok es
      ∧ a2.cwd_path = par
      ∧ a2.cwd_entries = (StatefulList.with_items es).select a.parent_idx
      ∧ a2.cwd_idx = ((StatefulList.with_items es).select a.parent_idx).state
      ∧ a2.parent_idx = none := by
  unfold handle_event at hasc
  rw [restart_err_eq] at hasc
  simp only [hp] at hasc
  rcases hload : load_entries fs { a with err := none } par a.parent_idx
    with ⟨aL, rL⟩
  rw [hload] at hasc
  rcases rL with eL | uL
  · simp at hasc
  · cases uL
    simp only [] at hasc
    rcases hH : handle_current_entry fs aL with ⟨aH, rH⟩
    simp only [hH] at hasc
    rcases rH with eH | uH
    · simp at hasc
    · cases uH
      injection hasc with h1 h2
      obtain ⟨es, hes, hLpath, hLent, hLidx, _, _, _, _, _⟩ :=
        load_entries_ok_inv fs { a with err := none } aL par a.parent_idx hload
      obtain ⟨hHpath, hHent, hHidx, _, _, _⟩ := handle_current_entry_preserves fs aL
      rw [hH] at hHpath hHent hHidx
      refine ⟨es, hes, ?_, ?_, ?_, ?_⟩
      · rw [← h1]
        show aH.cwd_path = par
        rw [hHpath, hLpath]
      · rw [← h1]
        show aH.cwd_entries = _
        rw [hHent, hLent]
      · rw [← h1]
        show aH.cwd_idx = _
        rw [hHidx, hLidx]
      · rw [← h1]

/-- C7: with the parent listing unchanged (the pure filesystem lists the
current directory exactly as the cursor holds it), descending into a
directory selected at index k and then ascending restores the path, the
entries and the selection at index k. -/
theorem c7_round_trip (fs : FS) (app app1 app2 : TravApp) (k : Nat)
    (entry : DirEntry) (nm : String)
    (hsel : app.cwd_entries.state = some k)
    (hidx : app.cwd_idx = some k)
    (hget : app.cwd_entries.items.get? k = some entry)
    (hpath : entry.path = app.cwd_path ++ [nm])
    (hmd : fs.metadata entry.path = Except.ok FileKind.dir)
    (hP : get_ok_entries fs app.cwd_path = Except.ok app.cwd_entries.items)
    (hdesc : handle_event fs app (Event.input Key.right) = (app1, Except.ok ()))
    (hasc : handle_event fs app1 (Event.input Key.left) = (app2, Except.ok ())) :
    app2.cwd_path = app.cwd_path
    ∧ app2.cwd_entries.items = app.cwd_entries.items
    ∧ app2.cwd_idx = some k
    ∧ app2.cwd_entries.state = some k := by
  have hc : app.cwd_entries.current = some entry := by
    unfold StatefulList.current
    rw [hsel]
    exact hget
  have hk : k < app.cwd_entries.items.length := by
    rcases List.get?_eq_some.mp hget with ⟨h, _⟩
    exact h
  obtain ⟨h1path, h1pidx⟩ := descend_dir_ok fs app app1 entry hc hmd hdesc
  have hp1 : Path.parent app1.cwd_path = some app.cwd_path := by
    rw [h1path, hpath, parent_append]
  obtain ⟨es, hes, h2path, h2ent, h2idx, h2pidx⟩ :=
    ascend_ok fs app1 app2 app.cwd_path hp1 hasc
  have hes' : es = app.cwd_entries.items := by
    rw [hP] at hes
    injection hes with h
    exact h.symm
  subst hes'
  rw [h1pidx, hidx, with_items_select _ k hk] at h2ent h2idx
  exact ⟨h2path, by rw [h2ent], by rw [h2idx], by rw [h2ent]⟩

/-- Filesystem for the C7 witness: a root listing directory r, which lists
the empty directory b. -/
def fsC7 : FS where
  readDir := fun p =>
    if p = [] then Except.ok [Except.ok "r"]
    else if p = ["r"] then Except.ok [Except.ok "b"]
    else if p = ["r", "b"] then Except.ok []
    else Except.error "boom"
  metadata := fun p =>
    if p = ["r", "b"] then Except.ok FileKind.dir else Except.ok FileKind.file
  openFile := fun _ => none
  spawnOpen := fun _ => Except.ok ()

def appC7 : TravApp where
  cwd_path := ["r"]
  cwd_entries := { items := [{ name := "b", path := ["r", "b"] }], state := some 0 }
  cwd_idx := some 0
  parent := some ([], [{ name := "r", path := ["r"] }])
  parent_idx := none
  child_entries := none
  content := none
  exit := false
  err := none

/-- The state after descending into b from appC7. -/
def app1C7 : TravApp where
  cwd_path := ["r", "b"]
  cwd_entries := { items := [], state := none }
  cwd_idx := none
  parent := some (["r"], [{ name := "b", path := ["r", "b"] }])
  parent_idx := some 0
  child_entries := none
  content := none
  exit := false
  err := none

/-- The state after ascending back out of b. -/
def app2C7 : TravApp where
  cwd_path := ["r"]
  cwd_entries := { items := [{ name := "b", path := ["r", "b"] }], state := some 0 }
  cwd_idx := some 0
  parent := some ([], [{ name := "r", path := ["r"] }])
  parent_idx := none
  child_entries := some []
  content := none
  exit := false
  err := none

/-- Witness for C7 on the concrete two-level filesystem: descending into b
at index 0 and ascending restores path r and selection 0. -/
theorem c7_round_trip_witness :
    app2C7.cwd_path = appC7.cwd_path
    ∧ app2C7.cwd_entries.items = appC7.cwd_entries.items
    ∧ app2C7.cwd_idx = some 0
    ∧ app2C7.cwd_entries.state = some 0 :=
  c7_round_trip fsC7 appC7 app1C7 app2C7 0 { name := "b", path := ["r", "b"] } "b"
    (by decide) (by decide) (by decide) (by decide) (by decide) (by decide)
    (by decide) (by decide)

end Trav
